import Mathlib

/-!
Verification of the Flicker skeleton-conversion plugin (`code.js`) against its
natural-language specification.

The development is a shallow embedding of the tree-transformation engine:

* scene-graph nodes become a Lean structure (`SceneNode`), with machine numbers
  modelled as rationals (the source works with ideal JS numbers; no claim here
  depends on float rounding);
* the mutable children list of a parent becomes an explicit `List SceneNode`
  threaded through the rewriting functions; node identity (JS object identity,
  used by `indexOf` and `remove`) is modelled by an `id : Nat` field, with
  freshly created placeholder rectangles carrying `id = 0`;
* the external font platform (`figma.loadFontAsync`) and the fallible
  `detachInstance` platform call are modelled as an environment (`FontEnv`);
* `figma.notify` calls become values of an inductive `Notification` type
  collected in a list, in emission order;
* exceptions become `Except`: a thrown error is `.error`, and the scope of each
  JS `try`/`catch` is reflected in where the `Except` is matched.
-/

namespace Flicker

/-- An RGB solid fill color, from the `fills` payload in `code.js`. -/
structure Paint where
  r : ℚ
  g : ℚ
  b : ℚ
deriving DecidableEq, Repr

/-- A font reference: `{ family, style }` as used by `figma.loadFontAsync`. -/
structure FontRef where
  family : String
  style : String
deriving DecidableEq, Repr

/-- The `fontName` property of a text node: either a single concrete font
(`typeof fontName === 'object'` with truthy family and style in the source) or
the mixed marker (`figma.mixed`), in which case the source scans character
sub-ranges via `getRangeFontName` / `getRangeFontSize`. -/
inductive FontNameField where
  | single (font : FontRef)
  | mixed
deriving DecidableEq, Repr

/-- The `lineHeight` property of a text node as read by `code.js`
(lines 412-427): absent (`undefined`/`null`), the mixed marker, or a tagged
unit value; `unknownUnit` models the defensive final `else` branch. -/
inductive LineHeightField where
  | absent
  | mixedLH
  | auto
  | pixels (value : ℚ)
  | percent (value : ℚ)
  | unknownUnit
deriving DecidableEq, Repr

/-- Node type tags appearing in `code.js` (`FRAME`, `COMPONENT`, `INSTANCE`,
`TEXT`, `RECTANGLE`, `ELLIPSE`, `VECTOR`, `POLYGON`, `STAR`,
`BOOLEAN_OPERATION`, `LINE`, `GROUP`, anything else). `inst` stands for
`INSTANCE` (the literal word is a Lean keyword). -/
inductive NodeType where
  | frame
  | component
  | inst
  | group
  | text
  | rectangle
  | ellipse
  | vector
  | polygon
  | star
  | booleanOperation
  | line
  | other
deriving DecidableEq, Repr

/-- A scene-graph node with the attributes `code.js` reads or writes.
`id` models JS object identity (`indexOf`, `remove` compare by reference);
placeholders created by the rewriter carry `id = 0`, and the theorems assume
real document nodes have nonzero, pairwise distinct ids. The text-specific
fields (`fontName`, `fontSizeField`, `charRuns`, `lineHeight`) are only read
when `type = text`; `fontSizeField = none` models a `fontSize` that is not a
number (the mixed marker), and `charRuns` lists, for each character index, the
result of `getRangeFontName`/`getRangeFontSize` on the one-character range. -/
structure SceneNode where
  id : ℕ
  type : NodeType
  name : String := ""
  visible : Bool := true
  locked : Bool := false
  x : ℚ := 0
  y : ℚ := 0
  width : ℚ := 0
  height : ℚ := 0
  fills : List Paint := []
  cornerRadius : ℚ := 0
  fontName : FontNameField := .mixed
  fontSizeField : Option ℚ := none
  charRuns : List (FontRef × ℚ) := []
  lineHeight : LineHeightField := .absent
deriving DecidableEq, Repr

/-- The node types listed in `shouldConvertToSkeleton` (`code.js` 292-301). -/
def convertibleTypes : List NodeType :=
  [.text, .rectangle, .ellipse, .vector, .polygon, .star, .booleanOperation, .line]

/-- `shouldConvertToSkeleton` (`code.js` 276-308): false for a null node, an
invisible node, or a node narrower or shorter than 4; otherwise true exactly
when the type is in `convertibleTypes`. The JS `try`/`catch` around the body
(fail closed, return false) has no effect in the embedding because the body is
total. -/
def shouldConvertToSkeleton : Option SceneNode → Bool
  | none => false
  | some node =>
    if node.visible = false then false
    else if node.width < 4 ∨ node.height < 4 then false
    else convertibleTypes.contains node.type

/-- The external platform boundary: which fonts `figma.loadFontAsync` can load,
and which subtrees make the `detachInstance` platform call throw (keyed by the
root node's id; `detachAllInstances` is the only operation in `code.js` that
can throw inside a selection root's processing in this model). -/
structure FontEnv where
  loadable : FontRef → Bool
  detachFails : ℕ → Bool

deriving instance DecidableEq for Except

/-- The hard-coded fallback font list tried, in order, when the node's own
font fails to load (`code.js` 338-343). -/
def fallbackFonts : List FontRef :=
  [⟨"Inter", "Regular"⟩, ⟨"Roboto", "Regular"⟩, ⟨"SF Pro Text", "Regular"⟩,
    ⟨"Helvetica", "Regular"⟩]

/-- The mixed-font scan of `getFontSizeAndLoadFont` (`code.js` 364-386): walk
every one-character sub-range, and keep the running maximum font size, starting
from the fallback value 16 (`let fontSize = 16` at line 328 and
`let maxFontSize = fontSize` at line 366). Collecting and best-effort loading
the distinct fonts has no effect on the returned size. -/
def mixedScanMaxFontSize (runs : List (FontRef × ℚ)) : ℚ :=
  runs.foldl (fun m r => if r.2 > m then r.2 else m) 16

/-- The font-resolution core of `getFontSizeAndLoadFont` (`code.js` 327-388):
a single concrete font must load, either directly or through one of the
`fallbackFonts`, else the node fails with the font's family name; a mixed-font
node never fails and resolves to `mixedScanMaxFontSize` of its character runs.
On the single-font success path the size is the node's own `fontSize` when it
is a number, else 16. -/
def resolveFontSize (env : FontEnv) (node : SceneNode) : Except String ℚ :=
  match node.fontName with
  | .single f =>
    if env.loadable f || fallbackFonts.any env.loadable then
      .ok (node.fontSizeField.getD 16)
    else
      .error f.family
  | .mixed => .ok (mixedScanMaxFontSize node.charRuns)

/-- The user-visible messages the run can emit via `figma.notify`, one
constructor per distinct `notify` call site in `code.js`. -/
inductive Notification where
  | fontWarning (family : String)
  | invalidRadius
  | emptySelection
  | successOne
  | successMany (count : ℕ)
  | noValidFrames
  | someInvalid
  | runError
deriving DecidableEq, Repr

/-- The dedup-and-warn wrapper of `getFontSizeAndLoadFont` (`code.js`
389-400): on failure, notify once per font family per run, tracked in the
`notifiedFontFamilies` set (modelled as a list), then rethrow. Returns the
result, the updated set, and the notifications emitted. -/
def getFontSizeAndLoadFont (env : FontEnv) (notified : List String)
    (node : SceneNode) : Except String ℚ × List String × List Notification :=
  match resolveFontSize env node with
  | .ok s => (.ok s, notified, [])
  | .error fam =>
    if notified.contains fam then (.error fam, notified, [])
    else (.error fam, fam :: notified, [.fontWarning fam])

/-- Line-height resolution (`code.js` 412-427): absent or mixed line height
falls back to `fontSize * 1.2`, unit AUTO likewise, PIXELS is used directly,
PERCENT scales the font size, and any unknown unit falls back to 1.2 again. -/
def resolveLineHeight (lh : LineHeightField) (fontSize : ℚ) : ℚ :=
  match lh with
  | .absent => fontSize * (12/10)
  | .mixedLH => fontSize * (12/10)
  | .auto => fontSize * (12/10)
  | .pixels v => v
  | .percent v => fontSize * (v / 100)
  | .unknownUnit => fontSize * (12/10)

/-- `lineCount = Math.max(1, Math.round(height / lineHeightValue))`
(`code.js` 430); `round` on `ℚ` rounds half toward positive infinity exactly
as `Math.round` does. -/
def lineCountOf (height lineHeightPx : ℚ) : ℕ :=
  (max 1 (round (height / lineHeightPx))).toNat

/-- `skeletonHeight = Math.max(6, Math.round(fontSize * 0.7))` (`code.js`
431). -/
def barHeightOf (fontSize : ℚ) : ℚ :=
  ((max 6 (round (fontSize * (7/10))) : ℤ) : ℚ)

/-- The fixed light-gray skeleton fill `{ r: 0.85, g: 0.85, b: 0.85 }`. -/
def grayFill : Paint := ⟨85/100, 85/100, 85/100⟩

/-- One placeholder bar for line `i` of a text node, exactly as built in the
loop body of `code.js` 435-459: position `(node.x, yCursor)`, width 0.6 of the
node for the last line and full width otherwise, the fixed gray fill, the
configured corner radius, and the derived name. Fresh nodes carry `id = 0`. -/
def skeletonBar (node : SceneNode) (cr : ℚ) (lineCount i : ℕ)
    (yCursor barHeight : ℚ) : SceneNode :=
  { id := 0, type := .rectangle,
    name := node.name ++ " (skeleton line " ++ toString (i + 1) ++ ")",
    x := node.x, y := yCursor,
    width := if i = lineCount - 1 then node.width * (6/10) else node.width,
    height := barHeight,
    fills := [grayFill], cornerRadius := cr }

/-- The bar-creation loop `for (i = 0; i < lineCount; i++)` with the `yCursor`
accumulator (`code.js` 433-459), written with an explicit iteration count
(`fuel = lineCount - i` on entry) so the recursion mirrors the loop exactly. -/
def textBarsLoop (node : SceneNode) (cr : ℚ) (lineCount : ℕ)
    (barHeight lineHeightPx : ℚ) : ℕ → ℚ → ℕ → List SceneNode
  | _, _, 0 => []
  | i, yCursor, fuel + 1 =>
    skeletonBar node cr lineCount i yCursor barHeight ::
      textBarsLoop node cr lineCount barHeight lineHeightPx (i + 1)
        (yCursor + lineHeightPx) fuel

/-- All placeholder bars for a text node: the loop starting at `i = 0`,
`yCursor = node.y`, running `lineCount` times. -/
def textBars (node : SceneNode) (cr : ℚ) (lineCount : ℕ)
    (barHeight lineHeightPx : ℚ) : List SceneNode :=
  textBarsLoop node cr lineCount barHeight lineHeightPx 0 node.y lineCount

/-- `parent.insertChild(i, child)`: insert at index `i` of the children list.
The source API throws for an out-of-range index; the embedding appends instead,
and every theorem only uses in-range indices. -/
def insertChildAt (i : ℕ) (child : SceneNode) (l : List SceneNode) :
    List SceneNode :=
  match i, l with
  | 0, l => child :: l
  | _ + 1, [] => [child]
  | n + 1, c :: cs => c :: insertChildAt n child cs

/-- The sequential insertions `parent.insertChild(originalIndex + i, rect)` of
the text loop: insert the bars one by one at consecutive indices. -/
def insertBarsFrom (i : ℕ) (bars : List SceneNode) (l : List SceneNode) :
    List SceneNode :=
  match bars with
  | [] => l
  | b :: bs => insertBarsFrom (i + 1) bs (insertChildAt i b l)

/-- `node.remove()`: remove the node (identified by its id, modelling JS
reference identity) from its parent's children list. -/
def removeNodeById (targetId : ℕ) : List SceneNode → List SceneNode
  | [] => []
  | c :: cs => if c.id = targetId then cs else c :: removeNodeById targetId cs

/-- `parent.children.indexOf(node)` by node identity. JS returns -1 when the
node is absent; the embedding returns the list length, and every theorem only
applies it to present nodes. -/
def indexOfId (targetId : ℕ) : List SceneNode → ℕ
  | [] => 0
  | c :: cs => if c.id = targetId then 0 else indexOfId targetId cs + 1

/-- The single placeholder rectangle of the non-text branch of
`convertElementToSkeleton` (`code.js` 466-513): the node's exact geometry, the
gray fill, the configured corner radius forced to `min(width, height) / 2` for
an ellipse, and the derived name. -/
def shapePlaceholder (cr : ℚ) (node : SceneNode) : SceneNode :=
  { id := 0, type := .rectangle,
    name := node.name ++ " (skeleton)",
    x := node.x, y := node.y, width := node.width, height := node.height,
    fills := [grayFill],
    cornerRadius :=
      if node.type = .ellipse then min node.width node.height / 2 else cr }

/-- `convertElementToSkeleton` (`code.js` 311-513) acting on the parent's
children list. Text node: resolve the font (skipping the node untouched on
failure), compute line metrics, insert the bars at consecutive indices
starting at the node's index, then remove the original. Any other node:
insert the single `shapePlaceholder` at the node's index and remove the
original. Returns the new children list, the updated notified-family set, and
the notifications emitted. The source's null-parent guard is outside this
model (the children list of the parent is the input). -/
def convertElementToSkeleton (env : FontEnv) (cr : ℚ) (notified : List String)
    (children : List SceneNode) (node : SceneNode) :
    List SceneNode × List String × List Notification :=
  let originalIndex := indexOfId node.id children
  if node.type = .text then
    match getFontSizeAndLoadFont env notified node with
    | (.error _, notified', notes) => (children, notified', notes)
    | (.ok fontSize, notified', notes) =>
      let lineHeightPx := resolveLineHeight node.lineHeight fontSize
      let lineCount := lineCountOf node.height lineHeightPx
      let barHeight := barHeightOf fontSize
      let bars := textBars node cr lineCount barHeight lineHeightPx
      (removeNodeById node.id (insertBarsFrom originalIndex bars children),
        notified', notes)
  else
    (removeNodeById node.id
      (insertChildAt originalIndex (shapePlaceholder cr node) children),
      notified, [])

/-- `collectElements` (`code.js` 228-258) specialised to the flat shape the
claims quantify over: a root frame whose children are leaves. Pre-order: the
root itself is checked first, then each child in order. -/
def collectFlat (root : SceneNode) (children : List SceneNode) :
    List SceneNode :=
  (if shouldConvertToSkeleton (some root) then [root] else []) ++
    children.filter (fun c => shouldConvertToSkeleton (some c))

/-- The rewriting loop of `convertToSkeleton` (`code.js` 263-271): iterate the
collected worklist from its last element down to its first, applying
`convertElementToSkeleton` and accumulating notifications; the source wraps
each iteration in `try`/`catch`, which has no effect here since the embedded
step is total. `processElements (e :: rest) st` first processes `rest`
(the elements collected after `e`), then `e`. `processStep` is one loop
iteration: apply `convertElementToSkeleton` to the current children list and
notified set, and append the notifications it emits. -/
def processStep (env : FontEnv) (cr : ℚ)
    (st : List SceneNode × List String × List Notification)
    (e : SceneNode) : List SceneNode × List String × List Notification :=
  ((convertElementToSkeleton env cr st.2.1 st.1 e).1,
    (convertElementToSkeleton env cr st.2.1 st.1 e).2.1,
    st.2.2 ++ (convertElementToSkeleton env cr st.2.1 st.1 e).2.2)

def processElements (env : FontEnv) (cr : ℚ) :
    List SceneNode → List SceneNode × List String × List Notification →
      List SceneNode × List String × List Notification
  | [], st => st
  | e :: rest, st => processStep env cr (processElements env cr rest st) e

/-- `convertToSkeleton` (`code.js` 222-272) on a flat root: collect, then
rewrite in reverse collection order. -/
def convertToSkeleton (env : FontEnv) (cr : ℚ) (notified : List String)
    (root : SceneNode) (children : List SceneNode) :
    List SceneNode × List String × List Notification :=
  processElements env cr (collectFlat root children) (children, notified, [])

/-- What a single convertible node becomes in the children list, read off from
the branches of `convertElementToSkeleton`: a failed-font text node stays as
itself, a successful text node becomes its bars, and any other node becomes
its single shape placeholder. -/
def rewriteResult (env : FontEnv) (cr : ℚ) (node : SceneNode) :
    List SceneNode :=
  if node.type = .text then
    match resolveFontSize env node with
    | .error _ => [node]
    | .ok fontSize =>
      let lineHeightPx := resolveLineHeight node.lineHeight fontSize
      textBars node cr (lineCountOf node.height lineHeightPx)
        (barHeightOf fontSize) lineHeightPx
  else [shapePlaceholder cr node]

/-- The per-node effect of one whole run on a parent's children list:
convertible nodes are rewritten, all other nodes are left exactly in place. -/
def elementReplacement (env : FontEnv) (cr : ℚ) (node : SceneNode) :
    List SceneNode :=
  if shouldConvertToSkeleton (some node) then rewriteResult env cr node
  else [node]

/-- A frame: its own properties plus its (flat) children list. -/
structure Frame where
  props : SceneNode
  children : List SceneNode
deriving DecidableEq, Repr

/-- One item of the current selection: the frame and its parent's type (the
orchestrator only reads `selectedNode.parent.type`). -/
structure SelRoot where
  frame : Frame
  parentType : Option NodeType
deriving DecidableEq, Repr

/-- `detachAllInstances` (`code.js` 55-79) at the platform boundary: the
children here are already instance-free leaves, so a successful pass is the
identity; the external `detachInstance` call can throw, modelled by
`env.detachFails` on the root's id (a clone shares its source's id, standing
for the shared subtree content). -/
def detachAllInstances (env : FontEnv) (f : Frame) : Except Unit Frame :=
  if env.detachFails f.props.id then .error () else .ok f

/-- `convertFrameInPlace` (`code.js` 165-184): detach instances then convert
in place; any error is logged and rethrown (`throw error` at line 182). -/
def convertFrameInPlace (env : FontEnv) (cr : ℚ) (notified : List String)
    (f : Frame) : Except Unit (Frame × List String × List Notification) :=
  match detachAllInstances env f with
  | .error e => .error e
  | .ok f' =>
    let r := convertToSkeleton env cr notified f'.props f'.children
    .ok (⟨f'.props, r.1⟩, r.2.1, r.2.2)

/-- `convertTopLevelFrame` (`code.js` 192-220): clone the frame (value copy),
rename the clone, offset it beside the original, detach and convert on the
clone, return it; errors are rethrown (line 218). The first component of the
result is the state of the original frame after the call: every statement in
the source mutates only `skeletonFrame`, so it is the input unchanged. -/
def convertTopLevelFrame (env : FontEnv) (cr : ℚ) (notified : List String)
    (f : Frame) :
    Frame × Except Unit (Frame × List String × List Notification) :=
  let skeletonFrame : Frame :=
    { props := { f.props with
        name := f.props.name ++ " (Skeleton)",
        x := f.props.x + f.props.width + 50,
        y := f.props.y },
      children := f.children }
  match detachAllInstances env skeletonFrame with
  | .error e => (f, .error e)
  | .ok sf =>
    let r := convertToSkeleton env cr notified sf.props sf.children
    (f, .ok (⟨sf.props, r.1⟩, r.2.1, r.2.2))

/-- The clone's properties as set by `convertTopLevelFrame` before conversion:
renamed with the `" (Skeleton)"` suffix and offset beside the original. -/
def skeletonProps (rp : SceneNode) : SceneNode :=
  { rp with
      name := rp.name ++ " (Skeleton)",
      x := rp.x + rp.width + 50,
      y := rp.y }

/-- The running state of the selection loop in `createSkeletonVersion`. -/
structure LoopState where
  processed : List Frame
  hasErrors : Bool
  attempted : List ℕ
  notified : List String
  notes : List Notification
deriving DecidableEq, Repr

/-- `selectedNode.type !== 'FRAME' && ... 'COMPONENT' && ... 'INSTANCE'`
(`code.js` 106). -/
def isValidRootType (t : NodeType) : Bool :=
  t = .frame || t = .component || t = .inst

/-- A selection item that survives both validation steps of the loop
(`code.js` 106-117): an unlockable visible frame-like node at least 4x4. -/
def validRoot (r : SelRoot) : Bool :=
  isValidRootType r.frame.props.type && !r.frame.props.locked &&
    r.frame.props.visible && decide (4 ≤ r.frame.props.width) &&
    decide (4 ≤ r.frame.props.height)

/-- The `for (const selectedNode of selection)` loop of `createSkeletonVersion`
(`code.js` 104-135). A thrown error inside a root's conversion escapes the
loop (the enclosing `try` spans the whole loop), carrying the state at that
point: this is the `.error` result. Wrong-type items set `hasErrors` and are
skipped; locked/invisible/small items are skipped without setting it. -/
def runLoop (env : FontEnv) (cr : ℚ) :
    List SelRoot → LoopState → Except LoopState LoopState
  | [], st => .ok st
  | r :: rest, st =>
    if !isValidRootType r.frame.props.type then
      runLoop env cr rest { st with hasErrors := true }
    else if r.frame.props.locked || r.frame.props.visible = false ||
        r.frame.props.width < 4 || r.frame.props.height < 4 then
      runLoop env cr rest st
    else
      let st1 := { st with attempted := st.attempted ++ [r.frame.props.id] }
      if r.parentType = some NodeType.frame then
        match convertFrameInPlace env cr st.notified r.frame with
        | .error _ => .error st1
        | .ok (f', nf, ns) =>
          runLoop env cr rest { st1 with
            processed := st.processed ++ [f'],
            notified := nf, notes := st.notes ++ ns }
      else
        match convertTopLevelFrame env cr st.notified r.frame with
        | (_, .error _) => .error st1
        | (_, .ok (sk, nf, ns)) =>
          runLoop env cr rest { st1 with
            processed := st.processed ++ [sk],
            notified := nf, notes := st.notes ++ ns }

/-- The observable outcome of one run: which roots began conversion, the
produced frames, the final selection write (if reached), and the notification
stream in order. -/
structure RunResult where
  attemptedIds : List ℕ
  results : List Frame
  finalSelection : Option (List Frame)
  notifications : List Notification
deriving DecidableEq, Repr

/-- `createSkeletonVersion` (`code.js` 81-158): reset the notified-family set,
validate the corner radius (negative input is replaced by 24 with a notice;
the non-number case is not representable here), handle the empty selection,
run the loop, and emit the summary. An error escaping the loop reaches the
function-level `catch` (line 154): it is logged and notified, and neither the
selection write nor any summary happens. -/
def createSkeletonVersion (env : FontEnv) (selection : List SelRoot)
    (crIn : ℚ) : RunResult :=
  let radiusNotes : List Notification :=
    if crIn < 0 then [.invalidRadius] else []
  let cr := if crIn < 0 then 24 else crIn
  if selection.isEmpty then
    { attemptedIds := [], results := [], finalSelection := none,
      notifications := radiusNotes ++ [.emptySelection] }
  else
    match runLoop env cr selection ⟨[], false, [], [], []⟩ with
    | .error st =>
      { attemptedIds := st.attempted, results := [], finalSelection := none,
        notifications := radiusNotes ++ st.notes ++ [.runError] }
    | .ok st =>
      if st.processed.isEmpty then
        { attemptedIds := st.attempted, results := [], finalSelection := none,
          notifications := radiusNotes ++ st.notes ++ [.noValidFrames] }
      else
        let success : Notification :=
          if st.processed.length = 1 then .successOne
          else .successMany st.processed.length
        let extra : List Notification :=
          if st.hasErrors then [.someInvalid] else []
        { attemptedIds := st.attempted, results := st.processed,
          finalSelection := some st.processed,
          notifications := radiusNotes ++ st.notes ++ [success] ++ extra }

/-- Spec-side definition for claim C2, following the spec's words (section 4.5,
text case): bar `i` sits at `(node.x, node.y + i * lineHeightPx)`, has height
`max(6, round(fontSize * 0.7))`, full width except for the last line at 0.6
width, the gray fill, the configured corner radius, and the
`"(skeleton line i+1)"` name. To be compared with the bars the source builds
through its `yCursor` loop. -/
def specTextBar (node : SceneNode) (cr fontSize lineHeightPx : ℚ)
    (lineCount i : ℕ) : SceneNode :=
  { id := 0, type := .rectangle,
    name := node.name ++ " (skeleton line " ++ toString (i + 1) ++ ")",
    x := node.x, y := node.y + i * lineHeightPx,
    width := if i = lineCount - 1 then node.width * (6/10) else node.width,
    height := max 6 ((round (fontSize * (7/10)) : ℤ) : ℚ),
    fills := [grayFill], cornerRadius := cr }

/-- Spec-side definition for claim C5, following the spec's words (section 4.5,
non-text case): one placeholder with the node's exact geometry, corner radius
equal to the configured value except `min(width, height) / 2` for an ellipse,
the gray fill, and the `"(skeleton)"` name. -/
def specShapePlaceholder (cr : ℚ) (node : SceneNode) : SceneNode :=
  { id := 0, type := .rectangle,
    name := node.name ++ " (skeleton)",
    x := node.x, y := node.y, width := node.width, height := node.height,
    fills := [grayFill],
    cornerRadius :=
      if node.type = .ellipse then min node.width node.height / 2 else cr }

/-- Spec-side definition for claim C3, following the spec's words: the maximum
font size observed across all character sub-ranges (font sizes are positive,
so folding `max` from 0 computes exactly that). -/
def specMaxObservedFontSize (runs : List (FontRef × ℚ)) : ℚ :=
  (runs.map Prod.snd).foldl max 0

/-- The notified-set and notification effect of processing one node: only the
text branch consults the font machinery; every other branch leaves the set
untouched and emits nothing. -/
def fontEffect (env : FontEnv) (notified : List String) (node : SceneNode) :
    List String × List Notification :=
  if node.type = .text then (getFontSizeAndLoadFont env notified node).2
  else (notified, [])

/-- A text node whose font resolution fails with the given family name. -/
def failsWithFamily (env : FontEnv) (fam : String) (node : SceneNode) : Prop :=
  node.type = .text ∧ resolveFontSize env node = .error fam

/-- An environment in which no font loads and no detach fails. -/
def envNone : FontEnv := ⟨fun _ => false, fun _ => false⟩

/-- An environment in which exactly the Inter family loads. -/
def envInter : FontEnv :=
  ⟨fun f => decide (f.family = "Inter"), fun _ => false⟩

/-- An environment in which every font loads but detaching the subtree of the
node with id 1 throws. -/
def envDetachFail1 : FontEnv := ⟨fun _ => true, fun i => decide (i = 1)⟩

/-- Concrete fixture: a valid top-level frame root with id 1. -/
def rootA : SelRoot :=
  ⟨⟨{ id := 1, type := .frame, name := "A", width := 100, height := 100 }, []⟩, none⟩

/-- Concrete fixture: a valid top-level frame root with id 2. -/
def rootB : SelRoot :=
  ⟨⟨{ id := 2, type := .frame, name := "B", width := 100, height := 100 }, []⟩, none⟩

/-- Concrete fixture: a convertible rectangle child. -/
def rectA : SceneNode :=
  { id := 1, type := .rectangle, name := "A", width := 50, height := 50 }

/-- Concrete fixture: a non-convertible (group) child. -/
def groupB : SceneNode :=
  { id := 2, type := .group, name := "B", width := 50, height := 50 }

/-- Concrete fixture: a convertible 40x60 ellipse child. -/
def ellC : SceneNode :=
  { id := 3, type := .ellipse, name := "C", width := 40, height := 60 }

/-- Concrete fixture: a frame node used as a subtree root. -/
def frameRoot : SceneNode :=
  { id := 9, type := .frame, name := "root", width := 200, height := 200 }

/-- Concrete fixture: a locked, visible text node of convertible size whose
font cannot load anywhere. -/
def lockedTextNode : SceneNode :=
  { id := 5, type := .text, name := "locked text", locked := true,
    width := 100, height := 60, fontName := .single ⟨"Ghost", "Regular"⟩ }

/-- Concrete fixture: a mixed-font text node whose only character run has font
size 10, smaller than the 16 fallback. -/
def mixedNodeExample : SceneNode :=
  { id := 4, type := .text, name := "mixed", width := 100, height := 40,
    fontName := .mixed, charRuns := [(⟨"Inter", "Regular"⟩, 10)] }

/-- Concrete fixture: a text node with a loadable font, `fontSize = 16`,
pixel line height 20 and height 60 (the spec's three-bar example). -/
def textNodeW : SceneNode :=
  { id := 3, type := .text, name := "para", x := 10, y := 20,
    width := 100, height := 60,
    fontName := .single ⟨"Inter", "Regular"⟩, fontSizeField := some 16,
    lineHeight := .pixels 20 }

/-- Concrete fixture: two text nodes sharing the unloadable Ghost family. -/
def ghostText1 : SceneNode :=
  { id := 11, type := .text, name := "g1", width := 80, height := 20,
    fontName := .single ⟨"Ghost", "Regular"⟩ }

/-- Concrete fixture: second text node in the unloadable Ghost family. -/
def ghostText2 : SceneNode :=
  { id := 12, type := .text, name := "g2", y := 30, width := 80, height := 20,
    fontName := .single ⟨"Ghost", "Bold"⟩ }

/-- Concrete fixture: a locked, visible, convertible-sized rectangle. -/
def lockedRect : SceneNode :=
  { id := 6, type := .rectangle, name := "lk", locked := true,
    width := 50, height := 50 }

/-- Concrete fixture: a locked frame offered as a selection root. -/
def lockedRootSel : SelRoot :=
  ⟨⟨{ id := 8, type := .frame, name := "LR", locked := true,
      width := 100, height := 100 }, []⟩, none⟩

/-- Concrete fixture: the spec's end-to-end "Card" frame. -/
def cardFrame : Frame :=
  ⟨{ id := 7, type := .frame, name := "Card", width := 200, height := 100 },
    [rectA]⟩

/-- Concrete fixture: the expected skeleton clone of `cardFrame` — the
renamed, offset copy whose rectangle child became its placeholder. -/
def cardSkeleton : Frame :=
  ⟨skeletonProps cardFrame.props, [shapePlaceholder 24 rectA]⟩

theorem insertChildAt_append (l1 l2 : List SceneNode) (x : SceneNode) :
    insertChildAt l1.length x (l1 ++ l2) = l1 ++ x :: l2 := by
  induction l1 with
  | nil => rfl
  | cons c cs ih => simp [insertChildAt, ih]

theorem insertBarsFrom_append (bars : List SceneNode) :
    ∀ (l1 l2 : List SceneNode),
      insertBarsFrom l1.length bars (l1 ++ l2) = l1 ++ bars ++ l2 := by
  induction bars with
  | nil => intro l1 l2; simp [insertBarsFrom]
  | cons b bs ih =>
    intro l1 l2
    have h1 : insertChildAt l1.length b (l1 ++ l2) = l1 ++ b :: l2 :=
      insertChildAt_append l1 l2 b
    have h2 : l1 ++ b :: l2 = (l1 ++ [b]) ++ l2 := by simp
    have h3 : l1.length + 1 = (l1 ++ [b]).length := by simp
    calc insertBarsFrom l1.length (b :: bs) (l1 ++ l2)
        = insertBarsFrom (l1.length + 1) bs (l1 ++ b :: l2) := by
          simp [insertBarsFrom, h1]
      _ = insertBarsFrom ((l1 ++ [b]).length) bs ((l1 ++ [b]) ++ l2) := by
          rw [h2, h3]
      _ = (l1 ++ [b]) ++ bs ++ l2 := ih (l1 ++ [b]) l2
      _ = l1 ++ (b :: bs) ++ l2 := by simp

theorem removeNodeById_append (i : ℕ) (e : SceneNode) (he : e.id = i) :
    ∀ (l1 l2 : List SceneNode), (∀ c ∈ l1, c.id ≠ i) →
      removeNodeById i (l1 ++ e :: l2) = l1 ++ l2 := by
  intro l1
  induction l1 with
  | nil => intro l2 _; simp [removeNodeById, he]
  | cons c cs ih =>
    intro l2 h
    have hc : c.id ≠ i := h c (by simp)
    simp only [List.cons_append, removeNodeById, if_neg hc]
    exact congrArg (List.cons c) (ih l2 (fun d hd => h d (by simp [hd])))

theorem indexOfId_append (e : SceneNode) :
    ∀ (l1 l2 : List SceneNode), (∀ c ∈ l1, c.id ≠ e.id) →
      indexOfId e.id (l1 ++ e :: l2) = l1.length := by
  intro l1
  induction l1 with
  | nil => intro l2 _; simp [indexOfId]
  | cons c cs ih =>
    intro l2 h
    have hc : c.id ≠ e.id := h c (by simp)
    simp only [List.cons_append, indexOfId, if_neg hc, List.length_cons]
    exact congrArg (fun t => t + 1) (ih l2 (fun d hd => h d (by simp [hd])))

theorem insertChildAt_cons (i : ℕ) (x c : SceneNode) (l : List SceneNode) :
    insertChildAt (i + 1) x (c :: l) = c :: insertChildAt i x l := rfl

theorem insertBarsFrom_cons (bars : List SceneNode) :
    ∀ (i : ℕ) (c : SceneNode) (l : List SceneNode),
      insertBarsFrom (i + 1) bars (c :: l) = c :: insertBarsFrom i bars l := by
  induction bars with
  | nil => intro i c l; rfl
  | cons b bs ih =>
    intro i c l
    simp only [insertBarsFrom, insertChildAt_cons]
    exact ih (i + 1) c (insertChildAt i b l)

theorem removeNodeById_cons (i : ℕ) (c : SceneNode) (l : List SceneNode)
    (hc : c.id ≠ i) :
    removeNodeById i (c :: l) = c :: removeNodeById i l := by
  simp [removeNodeById, hc]

theorem indexOfId_cons (i : ℕ) (c : SceneNode) (l : List SceneNode)
    (hc : c.id ≠ i) :
    indexOfId i (c :: l) = indexOfId i l + 1 := by
  simp [indexOfId, hc]

theorem textBarsLoop_eq_map (node : SceneNode) (cr : ℚ) (k : ℕ)
    (barH lhp : ℚ) :
    ∀ (fuel i : ℕ) (y : ℚ),
      textBarsLoop node cr k barH lhp i y fuel =
        (List.range fuel).map
          (fun j => skeletonBar node cr k (i + j) (y + j * lhp) barH) := by
  intro fuel
  induction fuel with
  | zero => intro i y; simp [textBarsLoop]
  | succ m ih =>
    intro i y
    rw [List.range_succ_eq_map]
    simp only [textBarsLoop, List.map_cons, List.map_map]
    congr 1
    · simp
    · rw [ih (i + 1) (y + lhp)]
      apply List.map_congr_left
      intro j _
      simp only [Function.comp]
      congr 1
      · omega
      · push_cast
        ring

theorem textBars_eq_map (node : SceneNode) (cr : ℚ) (k : ℕ) (barH lhp : ℚ) :
    textBars node cr k barH lhp =
      (List.range k).map
        (fun j => skeletonBar node cr k j (node.y + j * lhp) barH) := by
  rw [textBars, textBarsLoop_eq_map]
  apply List.map_congr_left
  intro j _
  simp

theorem textBars_length (node : SceneNode) (cr : ℚ) (k : ℕ) (barH lhp : ℚ) :
    (textBars node cr k barH lhp).length = k := by
  rw [textBars_eq_map]; simp

theorem textBars_mem (node : SceneNode) (cr : ℚ) (k : ℕ) (barH lhp : ℚ) :
    ∀ b ∈ textBars node cr k barH lhp, b.id = 0 ∧ b.type = .rectangle := by
  rw [textBars_eq_map]
  intro b hb
  obtain ⟨j, _, rfl⟩ := List.mem_map.mp hb
  exact ⟨rfl, rfl⟩

theorem skeletonBar_eq_specTextBar (node : SceneNode) (cr fs lhp : ℚ) (k j : ℕ) :
    skeletonBar node cr k j (node.y + j * lhp) (barHeightOf fs) =
      specTextBar node cr fs lhp k j := by
  simp only [skeletonBar, specTextBar, barHeightOf]
  congr 1
  push_cast
  rfl

theorem textBars_eq_spec (node : SceneNode) (cr fs lhp : ℚ) (k : ℕ) :
    textBars node cr k (barHeightOf fs) lhp =
      (List.range k).map (specTextBar node cr fs lhp k) := by
  rw [textBars_eq_map]
  apply List.map_congr_left
  intro j _
  exact skeletonBar_eq_specTextBar node cr fs lhp k j

theorem removeInsertBars (bars l1 l2 : List SceneNode) (n : SceneNode)
    (h1 : ∀ c ∈ l1, c.id ≠ n.id) (hb : ∀ b ∈ bars, b.id ≠ n.id) :
    removeNodeById n.id (insertBarsFrom l1.length bars (l1 ++ n :: l2)) =
      l1 ++ bars ++ l2 := by
  have hclean : ∀ c ∈ l1 ++ bars, c.id ≠ n.id := by
    intro c hc
    rcases List.mem_append.mp hc with hc1 | hc2
    · exact h1 c hc1
    · exact hb c hc2
  rw [insertBarsFrom_append bars l1 (n :: l2),
    removeNodeById_append n.id n rfl (l1 ++ bars) l2 hclean]

theorem convertElement_split (env : FontEnv) (cr : ℚ) (nf : List String)
    (l1 l2 : List SceneNode) (n : SceneNode)
    (h1 : ∀ c ∈ l1, c.id ≠ n.id) (h0 : n.id ≠ 0) :
    convertElementToSkeleton env cr nf (l1 ++ n :: l2) n =
      (l1 ++ rewriteResult env cr n ++ l2, fontEffect env nf n) := by
  have hidx : indexOfId n.id (l1 ++ n :: l2) = l1.length :=
    indexOfId_append n l1 l2 h1
  by_cases ht : n.type = .text
  · cases hr : resolveFontSize env n with
    | error fam =>
      by_cases hfam : fam ∈ nf <;>
        simp [convertElementToSkeleton, getFontSizeAndLoadFont, rewriteResult,
          fontEffect, ht, hr, hfam]
    | ok fs =>
      have hlist := removeInsertBars
        (textBars n cr (lineCountOf n.height (resolveLineHeight n.lineHeight fs))
          (barHeightOf fs) (resolveLineHeight n.lineHeight fs)) l1 l2 n h1
        (fun b hbm => by
          have hz := (textBars_mem n cr _ _ _ b hbm).1
          rw [hz]
          exact fun he => h0 he.symm)
      simp [convertElementToSkeleton, getFontSizeAndLoadFont, ht, hr, hidx,
        fontEffect, rewriteResult, hlist]
  · have hone : insertChildAt l1.length (shapePlaceholder cr n)
        (l1 ++ n :: l2) =
        insertBarsFrom l1.length [shapePlaceholder cr n] (l1 ++ n :: l2) := rfl
    have hlist := removeInsertBars [shapePlaceholder cr n] l1 l2 n h1
      (fun b hbm => by
        have hz : b = shapePlaceholder cr n := by simpa using hbm
        rw [hz]
        exact fun he => h0 he.symm)
    simp [convertElementToSkeleton, ht, rewriteResult, fontEffect, hidx,
      hone, hlist]

theorem convertElement_cons (env : FontEnv) (cr : ℚ) (nf : List String)
    (c : SceneNode) (l : List SceneNode) (n : SceneNode) (hc : c.id ≠ n.id) :
    convertElementToSkeleton env cr nf (c :: l) n =
      ((c :: (convertElementToSkeleton env cr nf l n).1),
        (convertElementToSkeleton env cr nf l n).2) := by
  have hidx : indexOfId n.id (c :: l) = indexOfId n.id l + 1 :=
    indexOfId_cons n.id c l hc
  by_cases ht : n.type = .text
  · cases hr : resolveFontSize env n with
    | error fam =>
      by_cases hfam : fam ∈ nf <;>
        simp [convertElementToSkeleton, getFontSizeAndLoadFont, ht, hr, hfam]
    | ok fs =>
      simp [convertElementToSkeleton, getFontSizeAndLoadFont, ht, hr,
        hidx, insertBarsFrom_cons, removeNodeById_cons _ _ _ hc]
  · simp [convertElementToSkeleton, ht, hidx, insertChildAt_cons,
      removeNodeById_cons _ _ _ hc]

theorem processStep_cons (env : FontEnv) (cr : ℚ) (c : SceneNode)
    (e : SceneNode) (hc : c.id ≠ e.id) (l : List SceneNode)
    (nf : List String) (ns : List Notification) :
    processStep env cr (c :: l, nf, ns) e =
      ((c :: (processStep env cr (l, nf, ns) e).1),
        (processStep env cr (l, nf, ns) e).2) := by
  have hce := convertElement_cons env cr nf c l e hc
  simp [processStep, hce]

theorem processElements_cons (env : FontEnv) (cr : ℚ) :
    ∀ (ws : List SceneNode) (c : SceneNode) (l : List SceneNode)
      (nf : List String) (ns : List Notification),
      (∀ w ∈ ws, w.id ≠ c.id) →
      processElements env cr ws (c :: l, nf, ns) =
        ((c :: (processElements env cr ws (l, nf, ns)).1),
          (processElements env cr ws (l, nf, ns)).2) := by
  intro ws
  induction ws with
  | nil => intro c l nf ns _; rfl
  | cons e rest ih =>
    intro c l nf ns h
    have hrest : ∀ w ∈ rest, w.id ≠ c.id := fun w hw => h w (by simp [hw])
    have he : c.id ≠ e.id := fun x => (h e (by simp)) x.symm
    simp only [processElements]
    rw [ih c l nf ns hrest]
    exact processStep_cons env cr c e he
      (processElements env cr rest (l, nf, ns)).1
      (processElements env cr rest (l, nf, ns)).2.1
      (processElements env cr rest (l, nf, ns)).2.2

theorem frame_not_convertible (p : SceneNode) (hp : p.type = .frame) :
    shouldConvertToSkeleton (some p) = false := by
  by_cases h1 : p.visible = false
  · simp [shouldConvertToSkeleton, h1]
  · by_cases h2 : p.width < 4 ∨ p.height < 4
    · simp [shouldConvertToSkeleton, h1, h2]
    · simp [shouldConvertToSkeleton, h1, h2, hp, convertibleTypes]

theorem processElements_filter (env : FontEnv) (cr : ℚ) :
    ∀ (cs : List SceneNode) (nf : List String) (ns : List Notification),
      (∀ c ∈ cs, c.id ≠ 0) → (cs.map SceneNode.id).Nodup →
      (processElements env cr
        (cs.filter (fun c => shouldConvertToSkeleton (some c)))
        (cs, nf, ns)).1 = cs.flatMap (elementReplacement env cr) := by
  intro cs
  induction cs with
  | nil => intro nf ns _ _; simp [processElements]
  | cons c rest ih =>
    intro nf ns h0 hnd
    have h0r : ∀ x ∈ rest, x.id ≠ 0 := fun x hx => h0 x (by simp [hx])
    rw [List.map_cons] at hnd
    have hcid : c.id ∉ rest.map SceneNode.id := (List.nodup_cons.mp hnd).1
    have hndr : (rest.map SceneNode.id).Nodup := (List.nodup_cons.mp hnd).2
    have hne : ∀ w ∈ rest.filter
        (fun x => shouldConvertToSkeleton (some x)), w.id ≠ c.id := by
      intro w hw heq
      apply hcid
      rw [← heq]
      exact List.mem_map_of_mem SceneNode.id (List.mem_of_mem_filter hw)
    by_cases hconv : shouldConvertToSkeleton (some c) = true
    · rw [List.filter_cons_of_pos (by simpa using hconv)]
      have hP := ih nf ns h0r hndr
      simp only [processElements]
      rw [processElements_cons env cr _ c rest nf ns hne]
      have hsplit := convertElement_split env cr
        (processElements env cr
          (rest.filter (fun x => shouldConvertToSkeleton (some x)))
          (rest, nf, ns)).2.1 []
        (processElements env cr
          (rest.filter (fun x => shouldConvertToSkeleton (some x)))
          (rest, nf, ns)).1 c (by simp) (h0 c (by simp))
      simp only [List.nil_append] at hsplit
      rw [hP] at hsplit
      simp [processStep, hP, hsplit, elementReplacement, hconv]
    · rw [List.filter_cons_of_neg (by simpa using hconv)]
      rw [processElements_cons env cr _ c rest nf ns hne]
      simp [ih nf ns h0r hndr, elementReplacement, hconv]

theorem convertToSkeleton_flat (env : FontEnv) (cr : ℚ) (nf : List String)
    (root : SceneNode) (cs : List SceneNode)
    (hroot : shouldConvertToSkeleton (some root) = false)
    (h0 : ∀ c ∈ cs, c.id ≠ 0) (hnd : (cs.map SceneNode.id).Nodup) :
    (convertToSkeleton env cr nf root cs).1 =
      cs.flatMap (elementReplacement env cr) := by
  simp only [convertToSkeleton, collectFlat, hroot, if_false,
    Bool.false_eq_true, List.nil_append]
  exact processElements_filter env cr cs nf [] h0 hnd

/-- CLAIM C4. Running the engine over a parent's children list replaces each
convertible child, in place, by its placeholder(s) (several contiguous bars
for a text node, one rectangle otherwise, and the node itself when its font
fails) and keeps every non-convertible child as the very same node at its
position between them: the final list is exactly the concatenation, in
original order, of each child's replacement. In particular the relative order,
identity and position of unconverted siblings is unchanged and placeholders
occupy their source's former index range. Hypotheses: the root is a frame and
the children carry distinct nonzero ids (JS object identity). -/
theorem C4_unconverted_sibling_order (env : FontEnv) (cr : ℚ)
    (nf : List String) (root : SceneNode) (cs : List SceneNode)
    (hroot : root.type = .frame)
    (h0 : ∀ c ∈ cs, c.id ≠ 0)
    (hnd : (cs.map SceneNode.id).Nodup) :
    (convertToSkeleton env cr nf root cs).1 =
      cs.flatMap (elementReplacement env cr) ∧
    ∀ c ∈ cs, shouldConvertToSkeleton (some c) = false →
      elementReplacement env cr c = [c] := by
  refine ⟨convertToSkeleton_flat env cr nf root cs
    (frame_not_convertible root hroot) h0 hnd, ?_⟩
  intro c _ hc
  simp [elementReplacement, hc]

/-- Witness for C4: a parent with children rectangle (convert), group (skip),
ellipse (convert). -/
theorem C4_unconverted_sibling_order_witness :
    (convertToSkeleton envInter 24 [] frameRoot [rectA, groupB, ellC]).1 =
      [rectA, groupB, ellC].flatMap (elementReplacement envInter 24) ∧
    ∀ c ∈ [rectA, groupB, ellC], shouldConvertToSkeleton (some c) = false →
      elementReplacement envInter 24 c = [c] :=
  C4_unconverted_sibling_order envInter 24 [] frameRoot [rectA, groupB, ellC]
    (by decide) (by decide) (by decide)

/-- CLAIM C2. For a text node whose font metrics resolve (to `fs`, with a
positive resolved line height, the only case in which the source loop
terminates), the rewriter turns the node's slot in the children list into
exactly `lineCount = max(1, round(height / lineHeightPx))` bars described by
`specTextBar`: bar `i` at `(x, y + i * lineHeightPx)`, height
`max(6, round(fs * 0.7))`, full width except the last at 0.6 width, occupying
indices `idx .. idx + lineCount - 1` where `idx` is the node's former index;
the original is removed only after all bars are inserted (in the embedding,
`removeNodeById` is applied to the fully inserted list). -/
theorem C2_text_to_bars (env : FontEnv) (cr : ℚ) (nf : List String)
    (l1 l2 : List SceneNode) (n : SceneNode) (fs : ℚ)
    (htext : n.type = .text)
    (hfs : resolveFontSize env n = .ok fs)
    (_hpos : 0 < resolveLineHeight n.lineHeight fs)
    (h0 : n.id ≠ 0)
    (h1 : ∀ c ∈ l1, c.id ≠ n.id) :
    (convertElementToSkeleton env cr nf (l1 ++ n :: l2) n).1 =
      l1 ++ (List.range (lineCountOf n.height
          (resolveLineHeight n.lineHeight fs))).map
        (specTextBar n cr fs (resolveLineHeight n.lineHeight fs)
          (lineCountOf n.height (resolveLineHeight n.lineHeight fs))) ++
        l2 := by
  have hsplit := convertElement_split env cr nf l1 l2 n h1 h0
  have hrw : rewriteResult env cr n =
      textBars n cr (lineCountOf n.height (resolveLineHeight n.lineHeight fs))
        (barHeightOf fs) (resolveLineHeight n.lineHeight fs) := by
    simp [rewriteResult, htext, hfs]
  simp [hsplit, hrw, textBars_eq_spec]

/-- Witness for C2: the spec's example text node (height 60, pixel line
height 20, font size 16) in a loadable-font environment. -/
theorem C2_text_to_bars_witness :
    resolveFontSize envInter textNodeW = .ok 16 ∧
    0 < resolveLineHeight textNodeW.lineHeight 16 ∧
    (convertElementToSkeleton envInter 24 [] ([] ++ textNodeW :: []) textNodeW).1 =
      [] ++ (List.range (lineCountOf textNodeW.height
          (resolveLineHeight textNodeW.lineHeight 16))).map
        (specTextBar textNodeW 24 16
          (resolveLineHeight textNodeW.lineHeight 16)
          (lineCountOf textNodeW.height
            (resolveLineHeight textNodeW.lineHeight 16))) ++ [] :=
  ⟨by decide, by decide,
    C2_text_to_bars envInter 24 [] [] [] textNodeW 16 (by decide) (by decide)
      (by decide) (by decide) (by simp)⟩

/-- CLAIM C5. A non-text node's slot in the children list becomes exactly one
placeholder rectangle (`specShapePlaceholder`) with the node's exact x, y,
width and height, whose corner radius is the configured one, except for an
ellipse where it is `min(width, height) / 2` regardless of the configured
value. -/
theorem C5_shape_placeholder (env : FontEnv) (cr : ℚ) (nf : List String)
    (l1 l2 : List SceneNode) (n : SceneNode)
    (hnt : n.type ≠ .text) (h0 : n.id ≠ 0)
    (h1 : ∀ c ∈ l1, c.id ≠ n.id) :
    (convertElementToSkeleton env cr nf (l1 ++ n :: l2) n).1 =
      l1 ++ [specShapePlaceholder cr n] ++ l2 ∧
    (specShapePlaceholder cr n).cornerRadius =
      if n.type = .ellipse then min n.width n.height / 2 else cr := by
  have hsplit := convertElement_split env cr nf l1 l2 n h1 h0
  have hrw : rewriteResult env cr n = [specShapePlaceholder cr n] := by
    simp [rewriteResult, hnt]
    rfl
  exact ⟨by simp [hsplit, hrw], rfl⟩

/-- Witness for C5: the spec's 40x60 ellipse with configured radius 24 yields
corner radius 20. -/
theorem C5_shape_placeholder_witness :
    ((convertElementToSkeleton envInter 24 [] ([] ++ ellC :: []) ellC).1 =
      [] ++ [specShapePlaceholder 24 ellC] ++ [] ∧
    (specShapePlaceholder 24 ellC).cornerRadius =
      if ellC.type = .ellipse then min ellC.width ellC.height / 2 else 24) ∧
    (specShapePlaceholder 24 ellC).cornerRadius = 20 :=
  ⟨C5_shape_placeholder envInter 24 [] [] [] ellC (by decide) (by decide)
    (by simp), by norm_num [specShapePlaceholder, ellC, min_def]⟩

/-- CLAIM C8. The resolved line height is `fontSize * 1.2` when the stored
line height is absent, auto or mixed; the stored value itself when
pixel-valued; and `fontSize * (percent / 100)` when percent-valued. -/
theorem C8_line_height_resolution (fs v : ℚ) :
    resolveLineHeight .absent fs = fs * (12/10) ∧
    resolveLineHeight .auto fs = fs * (12/10) ∧
    resolveLineHeight .mixedLH fs = fs * (12/10) ∧
    resolveLineHeight (.pixels v) fs = v ∧
    resolveLineHeight (.percent v) fs = fs * (v / 100) :=
  ⟨rfl, rfl, rfl, rfl, rfl⟩

/-- Counterexample to C3: a mixed-font text node all of whose character
sub-ranges have font size 10 resolves to 16 (the scan starts from the
fallback 16), not to the maximum observed size 10 the claim requires. -/
theorem C3_counterexample :
    resolveFontSize envNone mixedNodeExample ≠
      .ok (specMaxObservedFontSize mixedNodeExample.charRuns) := by
  decide

theorem foldl_max_from_nonneg (l : List ℚ) :
    ∀ a : ℚ, 0 ≤ a → l.foldl max a = max a (l.foldl max 0) := by
  induction l with
  | nil =>
    intro a ha
    simp [max_eq_left ha]
  | cons x t ih =>
    intro a ha
    simp only [List.foldl_cons]
    rw [ih (max a x) (le_trans ha (le_max_left a x)),
      ih (max 0 x) (le_max_left 0 x)]
    rw [max_assoc 0 x, ← max_assoc a 0, max_eq_left ha, max_assoc]

theorem mixedScan_eq_max (runs : List (FontRef × ℚ)) :
    mixedScanMaxFontSize runs = max 16 (specMaxObservedFontSize runs) := by
  have hfun : ∀ (m : ℚ) (r : FontRef × ℚ),
      (if r.2 > m then r.2 else m) = max m r.2 := by
    intro m r
    rcases lt_or_le m r.2 with h | h
    · simp [h, max_eq_right h.le]
    · simp [not_lt.mpr h, max_eq_left h]
  calc mixedScanMaxFontSize runs
      = runs.foldl (fun m r => max m r.2) 16 := by
        unfold mixedScanMaxFontSize
        congr 1
        funext m r
        exact hfun m r
    _ = (runs.map Prod.snd).foldl max 16 := (List.foldl_map Prod.snd max runs 16).symm
    _ = max 16 ((runs.map Prod.snd).foldl max 0) :=
        foldl_max_from_nonneg (runs.map Prod.snd) 16 (by norm_num)
    _ = max 16 (specMaxObservedFontSize runs) := rfl

/-- CLAIM C3, amended. For a mixed-font text node the resolved font size is
the maximum of the 16-point fallback (the scan's starting value) and the
maximum font size observed across all character sub-ranges; it equals the
observed maximum only when that maximum is at least 16. -/
theorem C3_amended_max_with_fallback (env : FontEnv) (n : SceneNode)
    (hm : n.fontName = .mixed) :
    resolveFontSize env n =
      .ok (max 16 (specMaxObservedFontSize n.charRuns)) := by
  simp [resolveFontSize, hm, mixedScan_eq_max]

/-- Witness for the amended C3 at the concrete mixed-font node. -/
theorem C3_amended_max_with_fallback_witness :
    resolveFontSize envNone mixedNodeExample =
      .ok (max 16 (specMaxObservedFontSize mixedNodeExample.charRuns)) :=
  C3_amended_max_with_fallback envNone mixedNodeExample (by decide)

theorem processElements_allFail_seen (env : FontEnv) (cr : ℚ) (fam : String) :
    ∀ (ws : List SceneNode) (l : List SceneNode) (nf : List String)
      (ns : List Notification),
      (∀ w ∈ ws, failsWithFamily env fam w) → fam ∈ nf →
      processElements env cr ws (l, nf, ns) = (l, nf, ns) := by
  intro ws
  induction ws with
  | nil => intro l nf ns _ _; rfl
  | cons e rest ih =>
    intro l nf ns h hf
    have hrest : ∀ w ∈ rest, failsWithFamily env fam w :=
      fun w hw => h w (by simp [hw])
    obtain ⟨het, her⟩ := h e (by simp)
    simp only [processElements]
    rw [ih l nf ns hrest hf]
    simp [processStep, convertElementToSkeleton, het,
      getFontSizeAndLoadFont, her, hf]

theorem processElements_allFail_unseen (env : FontEnv) (cr : ℚ) (fam : String) :
    ∀ (ws : List SceneNode) (l : List SceneNode) (nf : List String)
      (ns : List Notification),
      ws ≠ [] → (∀ w ∈ ws, failsWithFamily env fam w) → fam ∉ nf →
      processElements env cr ws (l, nf, ns) =
        (l, fam :: nf, ns ++ [.fontWarning fam]) := by
  intro ws
  induction ws with
  | nil => intro l nf ns hne; exact absurd rfl hne
  | cons e rest ih =>
    intro l nf ns _ h hf
    obtain ⟨het, her⟩ := h e (by simp)
    have hrest : ∀ w ∈ rest, failsWithFamily env fam w :=
      fun w hw => h w (by simp [hw])
    cases rest with
    | nil =>
      simp only [processElements]
      simp [processStep, convertElementToSkeleton, het,
        getFontSizeAndLoadFont, her, hf]
    | cons r rs =>
      simp only [processElements]
      rw [show processStep env cr
          (processElements env cr rs (l, nf, ns)) r =
          processElements env cr (r :: rs) (l, nf, ns) from rfl]
      rw [ih l nf ns (by simp) hrest hf]
      have hmem : fam ∈ fam :: nf := by simp
      simp [processStep, convertElementToSkeleton, het,
        getFontSizeAndLoadFont, her, hmem]

theorem createSkeleton_single_top (env : FontEnv) (crIn : ℚ)
    (rp : SceneNode) (cs : List SceneNode)
    (hcr : ¬ crIn < 0)
    (hrt : isValidRootType rp.type = true) (hrl : rp.locked = false)
    (hrv : rp.visible = true) (hrw : 4 ≤ rp.width) (hrh : 4 ≤ rp.height)
    (hdet : env.detachFails rp.id = false) :
    createSkeletonVersion env [⟨⟨rp, cs⟩, none⟩] crIn =
      { attemptedIds := [rp.id],
        results := [⟨skeletonProps rp,
          (convertToSkeleton env crIn [] (skeletonProps rp) cs).1⟩],
        finalSelection := some [⟨skeletonProps rp,
          (convertToSkeleton env crIn [] (skeletonProps rp) cs).1⟩],
        notifications :=
          (convertToSkeleton env crIn [] (skeletonProps rp) cs).2.2 ++
            [.successOne] } := by
  have hnl : ¬ rp.locked = true := by simp [hrl]
  have hnv : ¬ rp.visible = false := by simp [hrv]
  have hnw : ¬ rp.width < 4 := not_lt.mpr hrw
  have hnh : ¬ rp.height < 4 := not_lt.mpr hrh
  simp [createSkeletonVersion, runLoop, hcr, hrt, hnl, hnv, hnw, hnh,
    convertTopLevelFrame, detachAllInstances, hdet, skeletonProps]

/-- CLAIM C6. Within a single run (the orchestrator resets the
notified-family set at run start), any number of text nodes failing with the
same unloadable font family produce exactly one `fontWarning` for that family
in the run's notification stream, and every failing text node is skipped with
no mutation: the produced frame's children list is the original list,
untouched. -/
theorem C6_font_warning_dedup (env : FontEnv) (fam : String) (crIn : ℚ)
    (rp : SceneNode) (texts : List SceneNode)
    (hcr : ¬ crIn < 0)
    (hrt : rp.type = .frame) (hrl : rp.locked = false) (hrv : rp.visible = true)
    (hrw : 4 ≤ rp.width) (hrh : 4 ≤ rp.height)
    (hdet : env.detachFails rp.id = false)
    (hne : texts ≠ [])
    (hts : ∀ t ∈ texts, failsWithFamily env fam t ∧ t.visible = true ∧
      4 ≤ t.width ∧ 4 ≤ t.height) :
    (createSkeletonVersion env [⟨⟨rp, texts⟩, none⟩] crIn).notifications.count
        (.fontWarning fam) = 1 ∧
    (createSkeletonVersion env [⟨⟨rp, texts⟩, none⟩] crIn).results.map
        Frame.children = [texts] := by
  have hrun := createSkeleton_single_top env crIn rp texts hcr
    (by simp [isValidRootType, hrt]) hrl hrv hrw hrh hdet
  have hfilter : texts.filter (fun c => shouldConvertToSkeleton (some c)) =
      texts := by
    rw [List.filter_eq_self]
    intro t ht
    obtain ⟨⟨htt, _⟩, htv, htw, hth⟩ := hts t ht
    have h1 : ¬ t.visible = false := by simp [htv]
    have h2 : ¬ (t.width < 4 ∨ t.height < 4) := by
      push_neg
      exact ⟨htw, hth⟩
    simp [shouldConvertToSkeleton, h1, h2, htt, convertibleTypes]
  have hconv : convertToSkeleton env crIn [] (skeletonProps rp) texts =
      (texts, [fam], [.fontWarning fam]) := by
    have hroot : shouldConvertToSkeleton (some (skeletonProps rp)) = false :=
      frame_not_convertible (skeletonProps rp) (by simp [skeletonProps, hrt])
    simp only [convertToSkeleton, collectFlat, hroot, if_false,
      Bool.false_eq_true, List.nil_append, hfilter]
    exact processElements_allFail_unseen env crIn fam texts texts [] []
      hne (fun w hw => (hts w hw).1) (by simp)
  rw [hrun, hconv]
  constructor
  · simp [List.count_cons, List.count_nil]
  · rfl

/-- Witness for C6: two text nodes sharing the unloadable Ghost family inside
one valid top-level frame produce one warning, and both stay in the tree. -/
theorem C6_font_warning_dedup_witness :
    (createSkeletonVersion envNone [⟨⟨frameRoot, [ghostText1, ghostText2]⟩,
        none⟩] 24).notifications.count (.fontWarning "Ghost") = 1 ∧
    (createSkeletonVersion envNone [⟨⟨frameRoot, [ghostText1, ghostText2]⟩,
        none⟩] 24).results.map Frame.children = [[ghostText1, ghostText2]] :=
  C6_font_warning_dedup envNone "Ghost" 24 frameRoot [ghostText1, ghostText2]
    (by norm_num) (by decide) (by decide) (by decide) (by decide) (by decide)
    (by decide) (by decide) (by
      intro t ht
      simp only [List.mem_cons, List.not_mem_nil, or_false] at ht
      rcases ht with h | h
      · subst h
        exact ⟨⟨rfl, rfl⟩, rfl, by norm_num [ghostText1],
          by norm_num [ghostText1]⟩
      · subst h
        exact ⟨⟨rfl, rfl⟩, rfl, by norm_num [ghostText2],
          by norm_num [ghostText2]⟩)

/-- CLAIM C9. A processed top-level frame is converted on a deep clone named
`"<original name> (Skeleton)"` positioned at
`(original.x + original.width + 50, original.y)`; the clone is the produced
result (its children are the conversion of the clone's copy of the original
children), and the original frame is left unmodified: the post-call state of
the original (the first component of `convertTopLevelFrame`, which embeds the
heap effect of a call in which every mutation targets `skeletonFrame`) is the
input frame itself. -/
theorem C9_top_level_clone (env : FontEnv) (cr : ℚ) (nf : List String)
    (f : Frame) (sk : Frame) (nf' : List String) (ns : List Notification)
    (h : (convertTopLevelFrame env cr nf f).2 = .ok (sk, nf', ns)) :
    (convertTopLevelFrame env cr nf f).1 = f ∧
    sk.props.name = f.props.name ++ " (Skeleton)" ∧
    sk.props.x = f.props.x + f.props.width + 50 ∧
    sk.props.y = f.props.y ∧
    sk.children =
      (convertToSkeleton env cr nf (skeletonProps f.props) f.children).1 := by
  by_cases hd : env.detachFails f.props.id
  · simp [convertTopLevelFrame, detachAllInstances, hd] at h
  · refine ⟨by simp [convertTopLevelFrame, detachAllInstances, hd], ?_⟩
    simp only [convertTopLevelFrame, detachAllInstances, hd,
      Bool.false_eq_true, if_false, Except.ok.injEq, Prod.mk.injEq] at h
    obtain ⟨hsk, -, -⟩ := h
    rw [← hsk]
    exact ⟨rfl, rfl, rfl, by simp [skeletonProps]⟩

/-- Witness for C9: converting the spec's "Card" frame produces the expected
clone and leaves the original value untouched. -/
theorem C9_top_level_clone_witness :
    (convertTopLevelFrame envInter 24 [] cardFrame).1 = cardFrame ∧
    cardSkeleton.props.name = cardFrame.props.name ++ " (Skeleton)" ∧
    cardSkeleton.props.x = cardFrame.props.x + cardFrame.props.width + 50 ∧
    cardSkeleton.props.y = cardFrame.props.y ∧
    cardSkeleton.children =
      (convertToSkeleton envInter 24 [] (skeletonProps cardFrame.props)
        cardFrame.children).1 :=
  C9_top_level_clone envInter 24 [] cardFrame cardSkeleton [] [] rfl

/-- Counterexample to C10 as stated: a locked, visible, convertible-sized
text node whose font cannot load anywhere is classified as convertible, yet
the run leaves it in place rather than replacing it with a placeholder. -/
theorem C10_counterexample :
    shouldConvertToSkeleton (some lockedTextNode) = true ∧
    (convertToSkeleton envNone 24 [] frameRoot [lockedTextNode]).1 =
      [lockedTextNode] := by
  decide

theorem lineCountOf_pos (h lhp : ℚ) : 0 < lineCountOf h lhp := by
  unfold lineCountOf
  have h1 : (1 : ℤ) ≤ max 1 (round (h / lhp)) := le_max_left _ _
  omega

/-- CLAIM C10, amended. The eligibility classifier ignores the locked flag: a
locked but visible node of convertible type with width and height at least 4
is classified as convertible (and classification is unchanged by clearing the
flag), and the rewriter replaces it with fresh placeholder rectangles —
provided, for a text node, that its font metrics resolve (an unloadable font
makes the rewriter skip the node, locked or not) — even though a locked node
offered as a selection root is rejected before any conversion is attempted. -/
theorem C10_amended_locked_ignored (env : FontEnv) (cr crIn : ℚ)
    (n : SceneNode) (r : SelRoot)
    (_hl : n.locked = true) (hv : n.visible = true)
    (hw : 4 ≤ n.width) (hh : 4 ≤ n.height)
    (ht : convertibleTypes.contains n.type = true) (_hid : n.id ≠ 0)
    (hfont : n.type = .text → ∃ fs, resolveFontSize env n = .ok fs)
    (hrlock : r.frame.props.locked = true) :
    shouldConvertToSkeleton (some n) = true ∧
    shouldConvertToSkeleton (some n) =
      shouldConvertToSkeleton (some { n with locked := false }) ∧
    elementReplacement env cr n ≠ [] ∧
    (∀ b ∈ elementReplacement env cr n, b.id = 0 ∧ b.type = .rectangle) ∧
    (createSkeletonVersion env [r] crIn).attemptedIds = [] ∧
    (createSkeletonVersion env [r] crIn).results = [] := by
  have h1 : ¬ n.visible = false := by simp [hv]
  have h2 : ¬ (n.width < 4 ∨ n.height < 4) := by
    push_neg
    exact ⟨hw, hh⟩
  have hconv : shouldConvertToSkeleton (some n) = true := by
    simp only [shouldConvertToSkeleton, h1, if_false, h2]
    exact ht
  have hrepl : elementReplacement env cr n = rewriteResult env cr n := by
    simp [elementReplacement, hconv]
  have hmain : elementReplacement env cr n ≠ [] ∧
      ∀ b ∈ elementReplacement env cr n, b.id = 0 ∧ b.type = .rectangle := by
    rw [hrepl]
    by_cases htx : n.type = .text
    · obtain ⟨fs, hfs⟩ := hfont htx
      have hrw : rewriteResult env cr n =
          textBars n cr
            (lineCountOf n.height (resolveLineHeight n.lineHeight fs))
            (barHeightOf fs) (resolveLineHeight n.lineHeight fs) := by
        simp [rewriteResult, htx, hfs]
      rw [hrw]
      refine ⟨List.ne_nil_of_length_pos ?_, textBars_mem n cr _ _ _⟩
      rw [textBars_length]
      exact lineCountOf_pos n.height (resolveLineHeight n.lineHeight fs)
    · have hrw : rewriteResult env cr n = [shapePlaceholder cr n] := by
        simp [rewriteResult, htx]
      rw [hrw]
      refine ⟨by simp, ?_⟩
      intro b hb
      have hbe : b = shapePlaceholder cr n := by simpa using hb
      rw [hbe]
      exact ⟨rfl, rfl⟩
  have hskip : (createSkeletonVersion env [r] crIn).attemptedIds = [] ∧
      (createSkeletonVersion env [r] crIn).results = [] := by
    by_cases hty : isValidRootType r.frame.props.type = true
    · constructor <;>
        simp [createSkeletonVersion, runLoop, hty, hrlock]
    · constructor <;>
        simp [createSkeletonVersion, runLoop, hty]
  exact ⟨hconv, rfl, hmain.1, hmain.2, hskip.1, hskip.2⟩

/-- Witness for the amended C10: a locked rectangle inside a subtree is
classified and replaced; a locked root frame is skipped by the orchestrator. -/
theorem C10_amended_locked_ignored_witness :
    shouldConvertToSkeleton (some lockedRect) = true ∧
    shouldConvertToSkeleton (some lockedRect) =
      shouldConvertToSkeleton (some { lockedRect with locked := false }) ∧
    elementReplacement envNone 24 lockedRect ≠ [] ∧
    (∀ b ∈ elementReplacement envNone 24 lockedRect,
      b.id = 0 ∧ b.type = .rectangle) ∧
    (createSkeletonVersion envNone [lockedRootSel] 24).attemptedIds = [] ∧
    (createSkeletonVersion envNone [lockedRootSel] 24).results = [] :=
  C10_amended_locked_ignored envNone 24 24 lockedRect lockedRootSel
    (by decide) (by decide) (by decide) (by decide) (by decide) (by decide)
    (fun h => absurd h (by decide)) (by decide)

/-- Counterexample to C1 as stated: with two valid top-level roots selected
and the first root's processing throwing (its detach platform call fails),
the run attempts only the first root — the second is never attempted — and
ends with the run-level error notification instead of any final summary; the
selection is never replaced. -/
theorem C1_counterexample :
    (createSkeletonVersion envDetachFail1 [rootA, rootB] 24).attemptedIds =
      [1] ∧
    (createSkeletonVersion envDetachFail1 [rootA, rootB] 24).finalSelection =
      none ∧
    (createSkeletonVersion envDetachFail1 [rootA, rootB] 24).notifications =
      [.runError] := by
  decide

theorem runLoop_abort (env : FontEnv) (cr : ℚ) (bad : SelRoot)
    (s2 : List SelRoot) (hbad : validRoot bad = true)
    (hfail : env.detachFails bad.frame.props.id = true) :
    ∀ (s1 : List SelRoot) (st : LoopState),
      (∀ r ∈ s1, validRoot r = true →
        env.detachFails r.frame.props.id = false) →
      ∃ st', runLoop env cr (s1 ++ bad :: s2) st = .error st' ∧
        st'.attempted = st.attempted ++
          (s1.filter validRoot).map (fun r => r.frame.props.id) ++
          [bad.frame.props.id] := by
  have hbadParts := hbad
  simp only [validRoot, Bool.and_eq_true, Bool.not_eq_true',
    decide_eq_true_eq] at hbadParts
  obtain ⟨⟨⟨⟨hbty, hblk⟩, hbv⟩, hbw⟩, hbh⟩ := hbadParts
  intro s1
  induction s1 with
  | nil =>
    intro st _
    refine ⟨{ st with attempted := st.attempted ++ [bad.frame.props.id] },
      ?_, by simp⟩
    have h1 : ¬ bad.frame.props.visible = false := by simp [hbv]
    have h2 : ¬ bad.frame.props.width < 4 := not_lt.mpr hbw
    have h3 : ¬ bad.frame.props.height < 4 := not_lt.mpr hbh
    by_cases hp : bad.parentType = some NodeType.frame
    · simp [runLoop, hbty, hblk, h1, h2, h3, hp, convertFrameInPlace,
        detachAllInstances, hfail]
    · simp [runLoop, hbty, hblk, h1, h2, h3, hp, convertTopLevelFrame,
        detachAllInstances, hfail]
  | cons r rs ih =>
    intro st h
    have hrest : ∀ x ∈ rs, validRoot x = true →
        env.detachFails x.frame.props.id = false :=
      fun x hx => h x (by simp [hx])
    by_cases hv : validRoot r = true
    · have hdet := h r (by simp) hv
      have hvparts := hv
      simp only [validRoot, Bool.and_eq_true, Bool.not_eq_true',
        decide_eq_true_eq] at hvparts
      obtain ⟨⟨⟨⟨hty, hlk⟩, hvis⟩, hw4⟩, hh4⟩ := hvparts
      have h1 : ¬ r.frame.props.visible = false := by simp [hvis]
      have h2 : ¬ r.frame.props.width < 4 := not_lt.mpr hw4
      have h3 : ¬ r.frame.props.height < 4 := not_lt.mpr hh4
      by_cases hp : r.parentType = some NodeType.frame
      · have hP : convertFrameInPlace env cr st.notified r.frame = .ok
            (⟨r.frame.props, (convertToSkeleton env cr st.notified
                r.frame.props r.frame.children).1⟩,
              (convertToSkeleton env cr st.notified r.frame.props
                r.frame.children).2.1,
              (convertToSkeleton env cr st.notified r.frame.props
                r.frame.children).2.2) := by
          simp [convertFrameInPlace, detachAllInstances, hdet]
        obtain ⟨st', hrun, hatt⟩ := ih { st with
            processed := st.processed ++ [⟨r.frame.props,
              (convertToSkeleton env cr st.notified r.frame.props
                r.frame.children).1⟩],
            attempted := st.attempted ++ [r.frame.props.id],
            notified := (convertToSkeleton env cr st.notified r.frame.props
              r.frame.children).2.1,
            notes := st.notes ++ (convertToSkeleton env cr st.notified
              r.frame.props r.frame.children).2.2 } hrest
        refine ⟨st', ?_, ?_⟩
        · rw [List.cons_append]
          simp only [runLoop, hty, hlk, h1, h2, h3, hp, hP, Bool.not_true,
            Bool.false_eq_true, if_false, if_true, decide_eq_true_eq,
            Bool.false_or, or_self]
          exact hrun
        · rw [hatt]
          simp [List.filter_cons_of_pos (by simpa using hv)]
      · have hP : convertTopLevelFrame env cr st.notified r.frame =
            (r.frame, .ok (⟨skeletonProps r.frame.props,
              (convertToSkeleton env cr st.notified
                (skeletonProps r.frame.props) r.frame.children).1⟩,
              (convertToSkeleton env cr st.notified
                (skeletonProps r.frame.props) r.frame.children).2.1,
              (convertToSkeleton env cr st.notified
                (skeletonProps r.frame.props) r.frame.children).2.2)) := by
          simp [convertTopLevelFrame, detachAllInstances, hdet, skeletonProps]
        obtain ⟨st', hrun, hatt⟩ := ih { st with
            processed := st.processed ++ [⟨skeletonProps r.frame.props,
              (convertToSkeleton env cr st.notified
                (skeletonProps r.frame.props) r.frame.children).1⟩],
            attempted := st.attempted ++ [r.frame.props.id],
            notified := (convertToSkeleton env cr st.notified
              (skeletonProps r.frame.props) r.frame.children).2.1,
            notes := st.notes ++ (convertToSkeleton env cr st.notified
              (skeletonProps r.frame.props) r.frame.children).2.2 } hrest
        refine ⟨st', ?_, ?_⟩
        · rw [List.cons_append]
          simp only [runLoop, hty, hlk, h1, h2, h3, hp, hP, Bool.not_true,
            Bool.false_eq_true, if_false, if_true, decide_eq_true_eq,
            Bool.false_or, or_self]
          exact hrun
        · rw [hatt]
          simp [List.filter_cons_of_pos (by simpa using hv)]
    · by_cases hty : isValidRootType r.frame.props.type = true
      · have hskip : (r.frame.props.locked || r.frame.props.visible = false ||
            r.frame.props.width < 4 || r.frame.props.height < 4) = true := by
          cases hlk : r.frame.props.locked with
          | true => simp [hlk]
          | false =>
            cases hvb : r.frame.props.visible with
            | false => simp [hlk, hvb]
            | true =>
              by_cases hwb : r.frame.props.width < 4
              · simp [hlk, hvb, hwb]
              · by_cases hhb : r.frame.props.height < 4
                · simp [hlk, hvb, hwb, hhb]
                · exfalso
                  apply hv
                  simp [validRoot, hty, hlk, hvb, not_lt.mp hwb,
                    not_lt.mp hhb]
        obtain ⟨st', hrun, hatt⟩ := ih st hrest
        refine ⟨st', ?_, ?_⟩
        · rw [List.cons_append]
          simp only [runLoop, hty, Bool.not_true, Bool.false_eq_true,
            if_false]
          rw [if_pos (by simpa using hskip)]
          exact hrun
        · rw [hatt]
          simp [List.filter_cons_of_neg (by simpa using hv)]
      · obtain ⟨st', hrun, hatt⟩ := ih { st with hasErrors := true } hrest
        refine ⟨st', ?_, ?_⟩
        · simp only [List.cons_append, runLoop]
          rw [if_pos (by simp [hty])]
          exact hrun
        · rw [hatt]
          simp [List.filter_cons_of_neg (by simpa using hv)]

/-- CLAIM C1, amended. An exception raised during one selected root's
processing (here: its detach platform call throwing) is caught and logged by
the run-level handler, but it aborts the processing of the remaining roots:
the roots attempted are exactly the valid roots before the failing one plus
the failing root itself, the selection is never replaced, and the run ends
with the run-level error notification instead of any final summary. (Only
errors inside a single node's conversion are confined to that node.) -/
theorem C1_amended_error_aborts_run (env : FontEnv) (crIn : ℚ)
    (s1 s2 : List SelRoot) (bad : SelRoot)
    (h1 : ∀ r ∈ s1, validRoot r = true →
      env.detachFails r.frame.props.id = false)
    (hbad : validRoot bad = true)
    (hfail : env.detachFails bad.frame.props.id = true) :
    (createSkeletonVersion env (s1 ++ bad :: s2) crIn).attemptedIds =
      (s1.filter validRoot).map (fun r => r.frame.props.id) ++
        [bad.frame.props.id] ∧
    (createSkeletonVersion env (s1 ++ bad :: s2) crIn).finalSelection =
      none ∧
    (createSkeletonVersion env (s1 ++ bad :: s2) crIn).notifications.getLast?
      = some .runError := by
  obtain ⟨st', hrun, hatt⟩ := runLoop_abort env
    (if crIn < 0 then 24 else crIn) bad s2 hbad hfail s1 ⟨[], false, [], [], []⟩
    h1
  have hsel : (s1 ++ bad :: s2).isEmpty = false := by
    cases s1 <;> simp
  simp only [createSkeletonVersion, hsel, Bool.false_eq_true, if_false, hrun]
  refine ⟨by simpa using hatt, by trivial, ?_⟩
  rw [show (if crIn < 0 then ([.invalidRadius] : List Notification) else []) ++
      st'.notes ++ [Notification.runError] =
      ((if crIn < 0 then ([.invalidRadius] : List Notification) else []) ++
        st'.notes) ++ [Notification.runError] from rfl]
  exact List.getLast?_concat _

/-- Witness for the amended C1: two valid top-level roots where the first
root's detach throws; only the first is attempted and the run ends in the
error notification. -/
theorem C1_amended_error_aborts_run_witness :
    (createSkeletonVersion envDetachFail1 ([] ++ rootA :: [rootB])
        24).attemptedIds =
      (([] : List SelRoot).filter validRoot).map
        (fun r => r.frame.props.id) ++ [rootA.frame.props.id] ∧
    (createSkeletonVersion envDetachFail1 ([] ++ rootA :: [rootB])
        24).finalSelection = none ∧
    (createSkeletonVersion envDetachFail1 ([] ++ rootA :: [rootB])
        24).notifications.getLast? = some .runError :=
  C1_amended_error_aborts_run envDetachFail1 24 [] [rootB] rootA
    (fun r hr => absurd hr (List.not_mem_nil r)) (by decide) (by decide)

/-- CLAIM C7. The eligibility classifier returns false for a null node, an
invisible node, or a node with width < 4 or height < 4; otherwise it returns
true exactly when the node's type is one of Text, Rectangle, Ellipse, Vector,
Polygon, Star, BooleanOperation, Line. (The source wraps the body in
`try`/`catch` returning false; the embedded body is total, so the classifier
never throws.) -/
theorem C7_eligibility_classifier (n : Option SceneNode) :
    shouldConvertToSkeleton n = true ↔
      ∃ v, n = some v ∧ v.visible = true ∧ 4 ≤ v.width ∧ 4 ≤ v.height ∧
        (v.type = .text ∨ v.type = .rectangle ∨ v.type = .ellipse ∨ v.type = .vector ∨
          v.type = .polygon ∨ v.type = .star ∨ v.type = .booleanOperation ∨ v.type = .line) := by
  cases n with
  | none => simp [shouldConvertToSkeleton]
  | some v =>
    simp only [shouldConvertToSkeleton]
    constructor
    · intro h
      refine ⟨v, rfl, ?_⟩
      by_cases hv : v.visible = false
      · simp [hv] at h
      · simp only [hv, if_false] at h
        by_cases hs : v.width < 4 ∨ v.height < 4
        · simp [hs] at h
        · simp only [hs, if_false] at h
          push_neg at hs
          refine ⟨by simpa using hv, hs.1, hs.2, ?_⟩
          cases ht : v.type <;> simp [convertibleTypes, ht] at h ⊢
    · rintro ⟨w, hw, hvis, hwid, hhei, htype⟩
      obtain rfl : v = w := by injection hw
      have h1 : ¬ (v.visible = false) := by simp [hvis]
      have h2 : ¬ (v.width < 4 ∨ v.height < 4) := by
        push_neg
        exact ⟨hwid, hhei⟩
      simp only [h1, if_false, h2]
      rcases htype with h | h | h | h | h | h | h | h <;> simp [convertibleTypes, h]

end Flicker
